import Mathlib

/-!
# btc_poller: configuration loading, one poll cycle, the insert, the poll loop

Shallow embedding of `internal/app/btc_poller/btc_poller.go`.

* Go strings are `String`; Go `int` is `Int` (64-bit; the JSON decoder only
  stores values in the `int64` range, `time.Duration` arithmetic wraps).
* `float64` values are an abstract type `F`: the program only moves them from
  the decoder to the insert statement.
* Byte slices handed to `encoding/json` are represented by what its scanner
  sees in them (`Body`): an invalid JSON text or a JSON value.
* The standard library (file system, HTTP client, database, JSON decoder) is
  the environment: it is passed to the functions as explicit arguments.
* A Go panic (nil pointer dereference) is an explicit exit of a run.
* Log output is not part of the modelled effects.
-/

namespace BtcPoller

/-! ## Data model (lines 17-33) -/

structure Poll where
  Uri : String
  IntervalSec : Int
deriving DecidableEq, Repr

structure DB where
  Host : String
  Port : Int
  User : String
  Password : String
  DBName : String
deriving DecidableEq, Repr

structure Config where
  Poll : BtcPoller.Poll
  DB : BtcPoller.DB
deriving DecidableEq, Repr

/-- The zero value of `Config`, the initial value of the global `allConfig`. -/
def Config.zero : Config :=
  { Poll := { Uri := "", IntervalSec := 0 }
    DB := { Host := "", Port := 0, User := "", Password := "", DBName := "" } }

/-! ## JSON values and the decoder's view of a byte slice -/

/-- A JSON value. A number literal without fraction and exponent part is
`int`; any other number literal is `real` and keeps its text. -/
inductive JVal where
  | null
  | bool (b : Bool)
  | int (i : Int)
  | real (lit : String)
  | str (s : String)
  | arr (items : List JVal)
  | obj (members : List (String × JVal))

/-- A byte slice as `encoding/json` sees it. -/
inductive Body where
  | malformed
  | json (v : JVal)

/-- The errors `json.Unmarshal` reports. -/
inductive JsonError where
  | invalidText
  | typeMismatch
  | stringTag
deriving DecidableEq, Repr

/-- The decoder's `saveError`: only the earliest error is kept. -/
def saveError (saved : Option JsonError) (e : JsonError) : Option JsonError :=
  match saved with
  | some e0 => some e0
  | none => some e

/-- Case folding of one rune of an object key, as far as it can reach an ASCII
field name: ASCII upper case, the Kelvin sign (U+212A) and the long s
(U+017F). -/
def foldRune (c : Char) : Char :=
  if 65 ≤ c.toNat ∧ c.toNat ≤ 90 then Char.ofNat (c.toNat + 32)
  else if c.toNat = 0x212A then Char.ofNat 107
  else if c.toNat = 0x017F then Char.ofNat 115
  else c

def foldName (s : String) : List Char := s.toList.map foldRune

/-- An object key selects the struct field named `name` when the two are equal
up to case folding. -/
def keyMatches (name key : String) : Bool := foldName key = foldName name

/-- Range of a Go `int` (64-bit). -/
def inInt64 (i : Int) : Bool := decide (-(2 : Int) ^ 63 ≤ i) && decide (i < (2 : Int) ^ 63)

/-- Decoding state: the destination as mutated so far and the saved error. -/
abbrev Dec (α : Type) := α × Option JsonError

/-- Store a JSON value into a `string` field. -/
def storeString {α : Type} (set : α → String → α) (v : JVal) (st : Dec α) : Dec α :=
  match v with
  | .str s => (set st.1 s, st.2)
  | .null => st
  | _ => (st.1, saveError st.2 .typeMismatch)

/-- Store a JSON value into an `int` field. -/
def storeInt {α : Type} (set : α → Int → α) (v : JVal) (st : Dec α) : Dec α :=
  match v with
  | .int i => if inInt64 i then (set st.1 i, st.2) else (st.1, saveError st.2 .typeMismatch)
  | .null => st
  | _ => (st.1, saveError st.2 .typeMismatch)

/-- One member of the object decoded into a `Poll`. -/
def decodePollMember (st : Dec Poll) (kv : String × JVal) : Dec Poll :=
  if keyMatches "uri" kv.1 then storeString (fun p s => { p with Uri := s }) kv.2 st
  else if keyMatches "interval_sec" kv.1 then
    storeInt (fun p i => { p with IntervalSec := i }) kv.2 st
  else st

/-- One member of the object decoded into a `DB`. -/
def decodeDBMember (st : Dec DB) (kv : String × JVal) : Dec DB :=
  if keyMatches "host" kv.1 then storeString (fun d s => { d with Host := s }) kv.2 st
  else if keyMatches "port" kv.1 then storeInt (fun d i => { d with Port := i }) kv.2 st
  else if keyMatches "user" kv.1 then storeString (fun d s => { d with User := s }) kv.2 st
  else if keyMatches "password" kv.1 then
    storeString (fun d s => { d with Password := s }) kv.2 st
  else if keyMatches "dbname" kv.1 then
    storeString (fun d s => { d with DBName := s }) kv.2 st
  else st

/-- Store a JSON value into a struct field whose members are decoded by
`member`. -/
def storeStruct {α : Type} (member : Dec α → String × JVal → Dec α) (v : JVal)
    (st : Dec α) : Dec α :=
  match v with
  | .obj ms => ms.foldl member st
  | .null => st
  | _ => (st.1, saveError st.2 .typeMismatch)

/-- One member of the top-level object decoded into a `Config`. -/
def decodeConfigMember (st : Dec Config) (kv : String × JVal) : Dec Config :=
  if keyMatches "poll" kv.1 then
    let r := storeStruct decodePollMember kv.2 (st.1.Poll, st.2)
    ({ st.1 with Poll := r.1 }, r.2)
  else if keyMatches "DB" kv.1 then
    let r := storeStruct decodeDBMember kv.2 (st.1.DB, st.2)
    ({ st.1 with DB := r.1 }, r.2)
  else st

/-- Model of `json.Unmarshal(bytes, settings)` for `settings *Config`: an
invalid text is rejected before anything is stored; members are decoded in
document order; a missing key leaves its field as it was; a value of the wrong
kind is skipped and the earliest such error is returned at the end. -/
def unmarshalConfig (b : Body) (settings : Config) : Dec Config :=
  match b with
  | .malformed => (settings, some .invalidText)
  | .json v => storeStruct decodeConfigMember v (settings, none)

/-! ## ReadConfig (lines 176-195) -/

/-- The condition of line 190. -/
def allRequired (settings : Config) : Bool :=
  (settings.DB.Host != "") && decide (settings.DB.Port > 0) && (settings.DB.User != "") &&
  (settings.DB.Password != "") && (settings.DB.DBName != "") &&
  decide (settings.Poll.IntervalSec > 0) && (settings.Poll.Uri != "")

/-- The function `ReadConfig(settings, path)`: the returned flag and the value of
`*settings` afterwards. `readFile` is `ioutil.ReadFile` (`none`: an error),
`unmarshal` is `json.Unmarshal` into a `*Config`. -/
def ReadConfig (readFile : String → Option Body) (unmarshal : Body → Config → Dec Config)
    (settings : Config) (path : String) : Bool × Config :=
  let result := false
  match readFile path with
  | some jsonBytes =>
    let (settings, _unmErr) := unmarshal jsonBytes settings
    if allRequired settings then (true, settings) else (result, settings)
  | none => (result, settings)

/-! ## The sample envelope (lines 104-115) and its decoder -/

/-- The anonymous struct of the field `Ticker`. -/
structure Ticker (F : Type) where
  Base : String
  Target : String
  Price : F
  Volume : F
  Change : F

structure unpackSample (F : Type) where
  Success : Bool
  Ticker : BtcPoller.Ticker F

/-- The zero value of `unpackSample` (`var oneSample unpackSample`); `zero` is
the float `0`. -/
def unpackSample.zero {F : Type} (zero : F) : unpackSample F :=
  { Success := false
    Ticker := { Base := "", Target := "", Price := zero, Volume := zero, Change := zero } }

/-- What the decoder does with the content of a JSON string bound to a
`float64` field tagged `,string`: store the parsed number, leave the field (the
content is `null`), save an error and go on, or stop decoding with an error. -/
inductive Quoted (F : Type) where
  | store (x : F)
  | keep
  | saved
  | halt

/-- Decoding state of the sample decoder: destination, saved error, and whether
a hard error has stopped the decoder. -/
structure SampleDec (α : Type) where
  val : α
  saved : Option JsonError
  halted : Bool

def sampleString {α : Type} (set : α → String → α) (v : JVal) (st : SampleDec α) :
    SampleDec α :=
  match v with
  | .str s => { st with val := set st.val s }
  | .null => st
  | _ => { st with saved := saveError st.saved .typeMismatch }

def sampleBool {α : Type} (set : α → Bool → α) (v : JVal) (st : SampleDec α) :
    SampleDec α :=
  match v with
  | .bool b => { st with val := set st.val b }
  | .null => st
  | _ => { st with saved := saveError st.saved .typeMismatch }

/-- A `float64` field tagged `,string`: only a JSON string (or `null`) is
accepted; a native number, boolean, array or object is an error that is saved,
and the field is skipped. -/
def sampleQuotedFloat {α F : Type} (quotedFloat : String → Quoted F) (set : α → F → α)
    (v : JVal) (st : SampleDec α) : SampleDec α :=
  match v with
  | .str s =>
    match quotedFloat s with
    | .store x => { st with val := set st.val x }
    | .keep => st
    | .saved => { st with saved := saveError st.saved .stringTag }
    | .halt => { st with halted := true }
  | .null => st
  | _ => { st with saved := saveError st.saved .stringTag }

/-- One member of the object decoded into the `Ticker` struct. -/
def decodeTickerMember {F : Type} (quotedFloat : String → Quoted F)
    (st : SampleDec (Ticker F)) (kv : String × JVal) : SampleDec (Ticker F) :=
  if st.halted then st
  else if keyMatches "base" kv.1 then sampleString (fun t s => { t with Base := s }) kv.2 st
  else if keyMatches "target" kv.1 then
    sampleString (fun t s => { t with Target := s }) kv.2 st
  else if keyMatches "price" kv.1 then
    sampleQuotedFloat quotedFloat (fun t x => { t with Price := x }) kv.2 st
  else if keyMatches "volume" kv.1 then
    sampleQuotedFloat quotedFloat (fun t x => { t with Volume := x }) kv.2 st
  else if keyMatches "change" kv.1 then
    sampleQuotedFloat quotedFloat (fun t x => { t with Change := x }) kv.2 st
  else st

/-- One member of the top-level object decoded into an `unpackSample`. -/
def decodeSampleMember {F : Type} (quotedFloat : String → Quoted F)
    (st : SampleDec (unpackSample F)) (kv : String × JVal) : SampleDec (unpackSample F) :=
  if st.halted then st
  else if keyMatches "success" kv.1 then
    sampleBool (fun s b => { s with Success := b }) kv.2 st
  else if keyMatches "ticker" kv.1 then
    match kv.2 with
    | .obj ms =>
      let r := ms.foldl (decodeTickerMember quotedFloat) ⟨st.val.Ticker, st.saved, false⟩
      ⟨{ st.val with Ticker := r.val }, r.saved, r.halted⟩
    | .null => st
    | _ => { st with saved := saveError st.saved .typeMismatch }
  else st

/-- Model of `json.Unmarshal(payload, &oneSample)`: the sample as the decoder
leaves it and the error it returns. -/
def unmarshalSample {F : Type} (quotedFloat : String → Quoted F) (b : Body)
    (s : unpackSample F) : Dec (unpackSample F) :=
  match b with
  | .malformed => (s, some .invalidText)
  | .json (.obj ms) =>
    let r := ms.foldl (decodeSampleMember quotedFloat) ⟨s, none, false⟩
    (r.val, if r.halted then some .stringTag else r.saved)
  | .json .null => (s, none)
  | .json _ => (s, some .typeMismatch)

/-- Value of a run of decimal digits read after `acc`. -/
def digitsValue : List Char → Nat → Option Nat
  | [], acc => some acc
  | c :: cs, acc =>
    if 48 ≤ c.toNat ∧ c.toNat ≤ 57 then digitsValue cs (acc * 10 + (c.toNat - 48)) else none

/-- Exact value of a plain decimal literal: optional `-`, digits, optionally a
point and digits. -/
def decimalValue (s : String) : Option ℚ :=
  let cs := s.toList
  let neg := cs.head? = some '-'
  let body := if neg then cs.tail else cs
  let ip := body.takeWhile (fun c => c ≠ '.')
  let rest := body.dropWhile (fun c => c ≠ '.')
  let fp := rest.tail
  if ip.isEmpty || (!rest.isEmpty && fp.isEmpty) then none
  else
    match digitsValue (ip ++ fp) 0 with
    | some m => some (mkRat (if neg then -(m : Int) else (m : Int)) (10 ^ fp.length))
    | none => none

/-- A quoted-number reading with floats read as exact rationals, for the
evaluations below: the content `null` leaves the field, and a plain decimal
literal is stored with its exact value. For a literal that binary64 represents
exactly, such as `50000.00`, `12.5` and `1.25`, this is the number
`strconv.ParseFloat` returns. It is not `strconv.ParseFloat` elsewhere: a
decimal that binary64 does not represent (`0.1`) is not rounded, a literal
beyond the binary64 range is not an overflow error, and forms with an exponent
or a bare point (`1e3`, `1.`) are answered with a saved error. The evaluations
use exactly representable plain decimal literals only. -/
def exactQuoted (s : String) : Quoted ℚ :=
  if s = "null" then .keep
  else
    match decimalValue s with
    | some q => .store q
    | none => .saved

/-! ## Effects, runs and the environment of one cycle -/

/-- The observable actions of a cycle, in program order. -/
inductive Event (F : Type) where
  /-- The call `http.DefaultClient.Do` sends the GET request for `uri`. -/
  | httpDo (uri : String)
  /-- The deferred `response.Body.Close()`. -/
  | bodyClose
  /-- The function `insertOneResult` is entered with these arguments. -/
  | insertCall (ticker currency : String) (price volume delta : F)
  /-- The call `db.Prepare` of the insert statement. -/
  | dbPrepare
  /-- The call `insertPrep.Exec` with these arguments. -/
  | stmtExec (ticker currency : String) (price volume delta : F)
  /-- The call `result.RowsAffected()`. -/
  | rowsAffected
deriving DecidableEq

/-- How a call ends: it returns a value, or it panics (a nil pointer is
dereferenced; nothing in the program recovers, so the process dies). -/
inductive Exit (α : Type) where
  | returned (a : α)
  | panicked
deriving DecidableEq

/-- A run of a function: the actions it performed and how it ended. -/
structure Run (F α : Type) where
  events : List (Event F)
  exit : Exit α

/-- What the database answers during one call of `insertOneResult`.
`prepare = false`: `db.Prepare` returns an error and a nil statement.
`exec = false`: `Exec` returns an error. `rowsAffected = none`:
`RowsAffected` returns an error. -/
structure DBWorld where
  prepare : Bool
  exec : Bool
  rowsAffected : Option Int
deriving DecidableEq

/-- What the network answers during one cycle. `request uri = false`:
`http.NewRequest` returns an error and a nil request. `response = none`:
`Do` returns an error and a nil response; `response = some payload`: a
response whose body `ioutil.ReadAll` reads as `payload` (all of it, or what was
read before a read error, which the code ignores). -/
structure CycleWorld where
  request : String → Bool
  response : Option Body
  db : DBWorld

/-! ## insertOneResult (lines 141-171) -/

/-- The function `insertOneResult(db, ticker, currency, price, volume, delta)`. The error
of `db.Prepare` is only logged, and line 154 calls `Exec` on the statement
whatever it is: on the nil statement of a failed `Prepare` that call
dereferences nil. -/
def insertOneResult {F : Type} (db : DBWorld) (ticker currency : String)
    (price volume delta : F) : Run F Bool :=
  let returnResult := false
  let call : List (Event F) := [.dbPrepare, .stmtExec ticker currency price volume delta]
  if db.prepare then
    if db.exec then
      match db.rowsAffected with
      | some _numAffected => ⟨call ++ [.rowsAffected], .returned true⟩
      | none => ⟨call ++ [.rowsAffected], .returned returnResult⟩
    else ⟨call, .returned returnResult⟩
  else ⟨call, .panicked⟩

/-! ## doPoll (lines 102-137) -/

/-- The function `doPoll(db, settings)`. Here `unmarshal` is `json.Unmarshal` into
`*unpackSample`, `zero` the float `0`. The errors of `NewRequest`, `Do` and
`ReadAll` are discarded; the error of `Unmarshal` is only logged, and line 134
tests `oneSample.Success` whatever it was. A nil request makes `Do` dereference
nil; a nil response makes line 123 dereference nil. The deferred `Close` runs
when the function returns and when a later call panics. -/
def doPoll {F : Type} (unmarshal : Body → unpackSample F → Dec (unpackSample F)) (zero : F)
    (w : CycleWorld) (settings : Poll) : Run F Unit :=
  let oneSample := unpackSample.zero zero
  if w.request settings.Uri then
    match w.response with
    | none => ⟨[.httpDo settings.Uri], .panicked⟩
    | some payload =>
      let (oneSample, _err) := unmarshal payload oneSample
      if oneSample.Success then
        let ins := insertOneResult w.db oneSample.Ticker.Base oneSample.Ticker.Target
          oneSample.Ticker.Price oneSample.Ticker.Volume oneSample.Ticker.Change
        let events := [.httpDo settings.Uri,
          .insertCall oneSample.Ticker.Base oneSample.Ticker.Target oneSample.Ticker.Price
            oneSample.Ticker.Volume oneSample.Ticker.Change] ++ ins.events ++ [.bodyClose]
        match ins.exit with
        | .returned _ => ⟨events, .returned ()⟩
        | .panicked => ⟨events, .panicked⟩
      else ⟨[.httpDo settings.Uri, .bodyClose], .returned ()⟩
  else ⟨[], .panicked⟩

/-! ## pollUntilDone (lines 88-99) -/

/-- Two's-complement wrap of a 64-bit signed product. -/
def wrapInt64 (x : Int) : Int := (x + 2 ^ 63) % 2 ^ 64 - 2 ^ 63

/-- The argument of `time.NewTicker` on line 91, in nanoseconds: it is computed
from the global `allConfig`, not from the parameter `settings`. -/
def tickerPeriod (allConfig : Config) : Int := wrapInt64 (allConfig.Poll.IntervalSec * 1000000000)

/-- The actions of the loop, in program order. -/
inductive LoopEvent (F : Type) where
  /-- The call `time.NewTicker` with this period in nanoseconds. -/
  | newTicker (period : Int)
  /-- One call `doPoll(db, settings)` and what it did. -/
  | cycle (settings : Poll) (run : Run F Unit)
  /-- A tick received from `pollTicker.C`. -/
  | tick

/-- A run of the loop: its actions, and whether the goroutine has panicked. -/
structure LoopRun (F : Type) where
  events : List (LoopEvent F)
  panicked : Bool

/-- The body of the `for` loop executed `n` times from cycle number `k` on:
`doPoll`, then the receive from the ticker. `worlds i` is the environment of
cycle number `i`. A panicking cycle ends the run. -/
def pollLoop {F : Type} (unmarshal : Body → unpackSample F → Dec (unpackSample F)) (zero : F)
    (worlds : Nat → CycleWorld) (settings : Poll) : Nat → Nat → LoopRun F
  | _, 0 => ⟨[], false⟩
  | k, n + 1 =>
    let run := doPoll unmarshal zero (worlds k) settings
    match run.exit with
    | .panicked => ⟨[.cycle settings run], true⟩
    | .returned _ =>
      let rest := pollLoop unmarshal zero worlds settings (k + 1) n
      ⟨.cycle settings run :: .tick :: rest.events, rest.panicked⟩

/-- The function `pollUntilDone(db, settings, closingChan)` observed until `ticks` ticks have
been received: the loop has no exit, so every finite observation is a prefix of
the endless run. `allConfig` is the global of line 36. `time.NewTicker` panics
on a period that is not positive. -/
def pollUntilDone {F : Type} (unmarshal : Body → unpackSample F → Dec (unpackSample F))
    (zero : F) (allConfig : Config) (worlds : Nat → CycleWorld) (settings : Poll)
    (ticks : Nat) : LoopRun F :=
  let period := tickerPeriod allConfig
  if period ≤ 0 then ⟨[], true⟩
  else
    let loop := pollLoop unmarshal zero worlds settings 0 ticks
    ⟨.newTicker period :: loop.events, loop.panicked⟩

/-! ## Stating the claims -/

/-- The seven conditions of the validation rule, as a proposition. -/
def Valid (c : Config) : Prop :=
  c.DB.Host ≠ "" ∧ 0 < c.DB.Port ∧ c.DB.User ≠ "" ∧ c.DB.Password ≠ "" ∧ c.DB.DBName ≠ "" ∧
  0 < c.Poll.IntervalSec ∧ c.Poll.Uri ≠ ""

/-- The seven required fields. -/
inductive Required where
  | dbHost | dbPort | dbUser | dbPassword | dbName | pollInterval | pollUri
deriving DecidableEq, Repr

/-- Key of the object that holds the field. -/
def Required.parent : Required → String
  | .pollInterval => "poll"
  | .pollUri => "poll"
  | _ => "DB"

/-- Key of the field inside its object. -/
def Required.key : Required → String
  | .dbHost => "host"
  | .dbPort => "port"
  | .dbUser => "user"
  | .dbPassword => "password"
  | .dbName => "dbname"
  | .pollInterval => "interval_sec"
  | .pollUri => "uri"

/-- Value of the field in a configuration. -/
def Required.get : Required → Config → String ⊕ Int
  | .dbHost, c => .inl c.DB.Host
  | .dbPort, c => .inr c.DB.Port
  | .dbUser, c => .inl c.DB.User
  | .dbPassword, c => .inl c.DB.Password
  | .dbName, c => .inl c.DB.DBName
  | .pollInterval, c => .inr c.Poll.IntervalSec
  | .pollUri, c => .inl c.Poll.Uri

/-- Whether a file gives the field: some member of the top-level object selects
the enclosing struct and is an object with a member that selects the field. -/
def mentions (f : Required) : Body → Bool
  | .json (.obj ms) =>
    ms.any fun kv =>
      keyMatches f.parent kv.1 &&
        match kv.2 with
        | .obj inner => inner.any fun kv2 => keyMatches f.key kv2.1
        | _ => false
  | _ => false

/-- The configuration file of the documented format with the given seven values. -/
def configDoc (uri : String) (interval : Int) (host : String) (port : Int)
    (user password dbname : String) : Body :=
  .json (.obj
    [("poll", .obj [("uri", .str uri), ("interval_sec", .int interval)]),
     ("DB", .obj [("host", .str host), ("port", .int port), ("user", .str user),
       ("password", .str password), ("dbname", .str dbname)])])

/-- A configuration file with every field but the database port. -/
def docWithoutPort : Body :=
  .json (.obj
    [("poll", .obj [("uri", .str "https://example.org/ticker"), ("interval_sec", .int 60)]),
     ("DB", .obj [("host", .str "localhost"), ("user", .str "poller"),
       ("password", .str "secret"), ("dbname", .str "btc")])])

/-- A settings value whose seven required fields are all set. -/
def filledConfig : Config :=
  { Poll := { Uri := "https://example.org/ticker", IntervalSec := 60 }
    DB := { Host := "localhost", Port := 3306, User := "poller", Password := "secret",
            DBName := "btc" } }

/-- A configuration file that gives all seven fields and then repeats the key
`poll` with a number:
`{"poll":{"uri":"https://example.org/ticker","interval_sec":60},
"DB":{"host":"localhost","port":3306,"user":"poller","password":"secret","dbname":"btc"},
"poll":1}`. -/
def docWithStrayPoll : Body :=
  .json (.obj
    [("poll", .obj [("uri", .str "https://example.org/ticker"), ("interval_sec", .int 60)]),
     ("DB", .obj [("host", .str "localhost"), ("port", .int 3306), ("user", .str "poller"),
       ("password", .str "secret"), ("dbname", .str "btc")]),
     ("poll", .int 1)])

/-- Whether an action is an HTTP request. -/
def Event.isHttpDo {F : Type} : Event F → Bool
  | .httpDo _ => true
  | _ => false

/-- Whether an action is an invocation of `insertOneResult`. -/
def Event.isInsertCall {F : Type} : Event F → Bool
  | .insertCall _ _ _ _ _ => true
  | _ => false

/-- The response body
`{"success":true,"ticker":{"base":"BTC","target":"USD","price":"50000.00",
"volume":"12.5","change":"1.25"}}`. -/
def tickerBody : Body :=
  .json (.obj
    [("success", .bool true),
     ("ticker", .obj [("base", .str "BTC"), ("target", .str "USD"),
       ("price", .str "50000.00"), ("volume", .str "12.5"), ("change", .str "1.25")])])

/-- The response body
`{"success":true,"ticker":{"base":"BTC","target":"USD","price":50000.00,
"volume":"12.5","change":"1.25"}}`: the price is a native JSON number. -/
def nativePriceBody : Body :=
  .json (.obj
    [("success", .bool true),
     ("ticker", .obj [("base", .str "BTC"), ("target", .str "USD"),
       ("price", .real "50000.00"), ("volume", .str "12.5"), ("change", .str "1.25")])])

/-- A cycle in which the request is built, the response arrives with the given
body, and the database accepts the insert. -/
def healthyWorld (payload : Body) : CycleWorld :=
  { request := fun _ => true
    response := some payload
    db := { prepare := true, exec := true, rowsAffected := some 1 } }

/-- Whether a loop action is a poll cycle. -/
def LoopEvent.isCycle {F : Type} : LoopEvent F → Bool
  | .cycle _ _ => true
  | _ => false

/-- Whether a loop action is the wait for a tick. -/
def LoopEvent.isTick {F : Type} : LoopEvent F → Bool
  | .tick => true
  | _ => false

/-- Whether a loop action is a poll cycle that returned to the loop. -/
def LoopEvent.isReturnedCycle {F : Type} : LoopEvent F → Bool
  | .cycle _ ⟨_, .returned _⟩ => true
  | _ => false

/-- A run viewed as its sequence of cycle and tick-wait events. -/
def cycleTickEvents {F : Type} (r : LoopRun F) : List (LoopEvent F) :=
  r.events.filter fun e => e.isCycle || e.isTick

/-- Strict alternation of cycles and tick waits; `expectCycle` tells which of
the two the first event must be. -/
def alternates {F : Type} : Bool → List (LoopEvent F) → Bool
  | _, [] => true
  | true, e :: es => e.isCycle && alternates false es
  | false, e :: es => e.isTick && alternates true es

/-- A cycle in which the request is sent and no response arrives. -/
def networkDown : CycleWorld :=
  { request := fun _ => true
    response := none
    db := { prepare := true, exec := true, rowsAffected := some 1 } }

theorem allRequired_iff (c : Config) : allRequired c = true ↔ Valid c := by
  simp [allRequired, Valid, and_assoc]

theorem foldl_keeps {σ β : Type} (f : σ → β → σ) (P : σ → Prop) (Q : β → Prop)
    (step : ∀ s b, Q b → P s → P (f s b)) :
    ∀ (l : List β) (s : σ), (∀ b ∈ l, Q b) → P s → P (l.foldl f s) := by
  intro l
  induction l with
  | nil => intro s _ h; exact h
  | cons b l ih =>
    intro s hl h
    exact ih (f s b) (fun x hx => hl x (List.mem_cons_of_mem _ hx))
      (step s b (hl b (List.mem_cons_self _ _)) h)

theorem storeString_val {α : Type} (set : α → String → α) (v : JVal) (st : Dec α) :
    (storeString set v st).1 = st.1 ∨ ∃ s, (storeString set v st).1 = set st.1 s := by
  cases v <;> simp [storeString]

theorem storeInt_val {α : Type} (set : α → Int → α) (v : JVal) (st : Dec α) :
    (storeInt set v st).1 = st.1 ∨ ∃ i, (storeInt set v st).1 = set st.1 i := by
  cases v <;> simp [storeInt]
  split <;> simp

theorem decodeDBMember_get (f : Required) (hf : f.parent = "DB") (p : Poll) (st : Dec DB)
    (kv : String × JVal) (h : keyMatches f.key kv.1 = false) :
    f.get ⟨p, (decodeDBMember st kv).1⟩ = f.get ⟨p, st.1⟩ := by
  obtain ⟨k, v⟩ := kv
  cases f <;> simp [Required.parent] at hf <;> simp only [Required.key] at h <;>
    cases v <;> simp [decodeDBMember, Required.get, storeString, storeInt, h] <;>
    split_ifs <;> simp

theorem decodePollMember_get (f : Required) (hf : f.parent = "poll") (d : DB) (st : Dec Poll)
    (kv : String × JVal) (h : keyMatches f.key kv.1 = false) :
    f.get ⟨(decodePollMember st kv).1, d⟩ = f.get ⟨st.1, d⟩ := by
  obtain ⟨k, v⟩ := kv
  cases f <;> simp [Required.parent] at hf <;> simp only [Required.key] at h <;>
    cases v <;> simp [decodePollMember, Required.get, storeString, storeInt, h] <;>
    split_ifs <;> simp

theorem Required.get_of_DB (f : Required) (hf : f.parent = "DB") (p q : Poll) (d : DB) :
    f.get ⟨p, d⟩ = f.get ⟨q, d⟩ := by
  cases f <;> simp [Required.parent] at hf <;> rfl

theorem Required.get_of_poll (f : Required) (hf : f.parent = "poll") (p : Poll) (d e : DB) :
    f.get ⟨p, d⟩ = f.get ⟨p, e⟩ := by
  cases f <;> simp [Required.parent] at hf <;> rfl

theorem Required.parent_cases (f : Required) : f.parent = "poll" ∨ f.parent = "DB" := by
  cases f <;> simp [Required.parent]

theorem storeStruct_DB_get (f : Required) (hf : f.parent = "DB") (p : Poll) (v : JVal)
    (st : Dec DB)
    (h : (match v with
          | .obj inner => inner.any fun kv2 => keyMatches f.key kv2.1
          | _ => false) = false) :
    f.get ⟨p, (storeStruct decodeDBMember v st).1⟩ = f.get ⟨p, st.1⟩ := by
  cases v <;> simp only [storeStruct]
  case obj inner =>
    simp only [List.any_eq_false] at h
    exact foldl_keeps decodeDBMember (fun s => f.get ⟨p, s.1⟩ = f.get ⟨p, st.1⟩)
      (fun kv => keyMatches f.key kv.1 = false)
      (fun s kv hkv hs => (decodeDBMember_get f hf p s kv hkv).trans hs) inner st
      (fun kv hkv => by simpa using h kv hkv) rfl

theorem storeStruct_Poll_get (f : Required) (hf : f.parent = "poll") (d : DB) (v : JVal)
    (st : Dec Poll)
    (h : (match v with
          | .obj inner => inner.any fun kv2 => keyMatches f.key kv2.1
          | _ => false) = false) :
    f.get ⟨(storeStruct decodePollMember v st).1, d⟩ = f.get ⟨st.1, d⟩ := by
  cases v <;> simp only [storeStruct]
  case obj inner =>
    simp only [List.any_eq_false] at h
    exact foldl_keeps decodePollMember (fun s => f.get ⟨s.1, d⟩ = f.get ⟨st.1, d⟩)
      (fun kv => keyMatches f.key kv.1 = false)
      (fun s kv hkv hs => (decodePollMember_get f hf d s kv hkv).trans hs) inner st
      (fun kv hkv => by simpa using h kv hkv) rfl

theorem decodeConfigMember_get (f : Required) (st : Dec Config) (kv : String × JVal)
    (h : (keyMatches f.parent kv.1 &&
          match kv.2 with
          | .obj inner => inner.any fun kv2 => keyMatches f.key kv2.1
          | _ => false) = false) :
    f.get (decodeConfigMember st kv).1 = f.get st.1 := by
  unfold decodeConfigMember
  rcases f.parent_cases with hf | hf <;> rw [hf] at h
  · cases hk : keyMatches "poll" kv.1
    · cases hd : keyMatches "DB" kv.1
      · simp
      · simpa using f.get_of_poll hf st.1.Poll _ st.1.DB
    · rw [hk, Bool.true_and] at h
      simpa using storeStruct_Poll_get f hf st.1.DB kv.2 (st.1.Poll, st.2) h
  · cases hk : keyMatches "poll" kv.1
    · cases hd : keyMatches "DB" kv.1
      · simp
      · rw [hd, Bool.true_and] at h
        simpa using storeStruct_DB_get f hf st.1.Poll kv.2 (st.1.DB, st.2) h
    · simpa using f.get_of_DB hf _ st.1.Poll st.1.DB

theorem unmarshalConfig_get (f : Required) (b : Body) (settings : Config)
    (h : mentions f b = false) : f.get (unmarshalConfig b settings).1 = f.get settings := by
  cases b with
  | malformed => rfl
  | json v =>
    cases v <;> simp only [unmarshalConfig, storeStruct]
    case obj ms =>
      simp only [mentions, List.any_eq_false] at h
      exact foldl_keeps decodeConfigMember (fun s => f.get s.1 = f.get settings)
        (fun kv => (keyMatches f.parent kv.1 &&
          match kv.2 with
          | .obj inner => inner.any fun kv2 => keyMatches f.key kv2.1
          | _ => false) = false)
        (fun s kv hkv hs => (decodeConfigMember_get f s kv hkv).trans hs) ms (settings, none)
        (fun kv hkv => by simpa using h kv hkv) rfl

theorem allRequired_of_get_zero (f : Required) (c : Config)
    (h : f.get c = f.get Config.zero) : allRequired c = false := by
  cases f <;> simp [Required.get, Config.zero] at h <;> simp [allRequired, h]

theorem unmarshalConfig_configDoc (uri : String) (interval : Int) (host : String) (port : Int)
    (user password dbname : String) (prior : Config)
    (hi : inInt64 interval = true) (hp : inInt64 port = true) :
    unmarshalConfig (configDoc uri interval host port user password dbname) prior =
      (⟨⟨uri, interval⟩, ⟨host, port, user, password, dbname⟩⟩, none) := by
  have hk : keyMatches "poll" "poll" = true ∧ keyMatches "poll" "DB" = false ∧
      keyMatches "DB" "DB" = true ∧ keyMatches "uri" "uri" = true ∧
      keyMatches "uri" "interval_sec" = false ∧
      keyMatches "interval_sec" "interval_sec" = true ∧
      keyMatches "host" "host" = true ∧
      keyMatches "host" "port" = false ∧ keyMatches "port" "port" = true ∧
      keyMatches "host" "user" = false ∧ keyMatches "port" "user" = false ∧
      keyMatches "user" "user" = true ∧
      keyMatches "host" "password" = false ∧ keyMatches "port" "password" = false ∧
      keyMatches "user" "password" = false ∧ keyMatches "password" "password" = true ∧
      keyMatches "host" "dbname" = false ∧ keyMatches "port" "dbname" = false ∧
      keyMatches "user" "dbname" = false ∧ keyMatches "password" "dbname" = false ∧
      keyMatches "dbname" "dbname" = true := by decide
  simp [unmarshalConfig, configDoc, storeStruct, decodeConfigMember, decodePollMember,
    decodeDBMember, storeString, storeInt, hk, hi, hp]

/-- C1: ReadConfig returns true if and only if the file was read without error
and the settings, after decoding into them, satisfy all seven conditions (for
every decoder). In particular, with the JSON decoder, zero-valued settings and a
file that does not give one of the seven fields, that field stays at its zero
value and ReadConfig returns false. -/
theorem C1_readConfig_true_iff_validated :
    (∀ (readFile : String → Option Body) (unmarshal : Body → Config → Dec Config)
        (settings : Config) (path : String),
        (ReadConfig readFile unmarshal settings path).1 = true ↔
          ∃ jsonBytes, readFile path = some jsonBytes ∧
            Valid (unmarshal jsonBytes settings).1) ∧
    (∀ (f : Required) (readFile : String → Option Body) (path : String) (b : Body),
        readFile path = some b → mentions f b = false →
          f.get (unmarshalConfig b Config.zero).1 = f.get Config.zero ∧
          (ReadConfig readFile unmarshalConfig Config.zero path).1 = false) := by
  constructor
  · intro readFile unmarshal settings path
    unfold ReadConfig
    cases hr : readFile path with
    | none => simp
    | some b =>
      simp only [Option.some.injEq, exists_eq_left']
      rw [← allRequired_iff]
      cases ha : allRequired (unmarshal b settings).1 <;> simp [ha]
  · intro f readFile path b hr hm
    have hg := unmarshalConfig_get f b Config.zero hm
    refine ⟨hg, ?_⟩
    have ha := allRequired_of_get_zero f _ hg
    simp [ReadConfig, hr, ha]

/-- C1 at a concrete file: the documented format without the database port,
read into zero-valued settings, is rejected. -/
theorem C1_witness_missing_port :
    mentions .dbPort docWithoutPort = false ∧
    (ReadConfig (fun _ => some docWithoutPort) unmarshalConfig Config.zero "poller.json").1
      = false :=
  ⟨by decide,
   (C1_readConfig_true_iff_validated.2 .dbPort (fun _ => some docWithoutPort) "poller.json"
      docWithoutPort rfl (by decide)).2⟩

/-! ## ReadConfig: the claims -/

/-- C2, refuted as stated: a decoding error does not by itself reject the load.
A file that is not valid JSON, read into settings whose seven fields are already
set, is reported by the decoder and ReadConfig returns true; the same happens
from zero-valued settings with a file that gives all seven fields and then
repeats a key with a value of the wrong kind. -/
theorem C2_counterexample_error_accepted :
    ((unmarshalConfig .malformed filledConfig).2 ≠ none ∧
      (ReadConfig (fun _ => some .malformed) unmarshalConfig filledConfig "poller.json").1
        = true) ∧
    ((unmarshalConfig docWithStrayPoll Config.zero).2 ≠ none ∧
      (ReadConfig (fun _ => some docWithStrayPoll) unmarshalConfig Config.zero
        "poller.json").1 = true) := by
  decide

/-- C2, amended: when decoding reports an error, the error is only logged:
ReadConfig returns false exactly when the settings as the decoder left them
violate one of the seven conditions. For a text that is not valid JSON nothing
is stored, so with zero-valued settings the load is rejected. -/
theorem C2_decode_error_rejected_iff_invalid (readFile : String → Option Body)
    (unmarshal : Body → Config → Dec Config) (settings : Config) (path : String)
    (jsonBytes : Body) (hread : readFile path = some jsonBytes)
    (_herr : (unmarshal jsonBytes settings).2 ≠ none) :
    ((ReadConfig readFile unmarshal settings path).1 = false ↔
      ¬ Valid (unmarshal jsonBytes settings).1) ∧
    (ReadConfig (fun _ => some .malformed) unmarshalConfig Config.zero path).1 = false := by
  constructor
  · rw [← allRequired_iff]
    unfold ReadConfig
    rw [hread]
    cases ha : allRequired (unmarshal jsonBytes settings).1 <;> simp [ha]
  · rfl

/-- C2 as amended, at a concrete input: invalid JSON read into zero-valued
settings is rejected. -/
theorem C2_witness_malformed_zero :
    (unmarshalConfig .malformed Config.zero).2 ≠ none ∧
    (ReadConfig (fun _ => some .malformed) unmarshalConfig Config.zero "poller.json").1
      = false :=
  ⟨by decide,
   (C2_decode_error_rejected_iff_invalid (fun _ => some .malformed) unmarshalConfig
      Config.zero "poller.json" .malformed rfl (by decide)).2⟩

/-- C3: when the file is read, decodes without error, and the decoded
configuration has its seven required fields non-empty and positive, ReadConfig
returns true and the settings afterwards are exactly the decoded
configuration. -/
theorem C3_valid_config_accepted (readFile : String → Option Body)
    (unmarshal : Body → Config → Dec Config) (settings : Config) (path : String)
    (jsonBytes : Body) (decoded : Config) (hread : readFile path = some jsonBytes)
    (hdec : unmarshal jsonBytes settings = (decoded, none)) (hvalid : Valid decoded) :
    ReadConfig readFile unmarshal settings path = (true, decoded) := by
  have ha : allRequired decoded = true := (allRequired_iff decoded).2 hvalid
  simp [ReadConfig, hread, hdec, ha]

/-- C3 at a concrete file of the documented format: it decodes without error,
is accepted, and the settings hold exactly the seven values given. -/
theorem C3_witness_documented_format :
    unmarshalConfig (configDoc "https://example.org/ticker" 60 "localhost" 3306 "poller"
      "secret" "btc") Config.zero = (filledConfig, none) ∧
    Valid filledConfig ∧
    ReadConfig (fun _ => some (configDoc "https://example.org/ticker" 60 "localhost" 3306
      "poller" "secret" "btc")) unmarshalConfig Config.zero "poller.json"
      = (true, filledConfig) :=
  have hdec := unmarshalConfig_configDoc "https://example.org/ticker" 60 "localhost" 3306
    "poller" "secret" "btc" Config.zero (by decide) (by decide)
  have hvalid : Valid filledConfig := (allRequired_iff filledConfig).1 (by decide)
  ⟨hdec, hvalid, C3_valid_config_accepted _ unmarshalConfig Config.zero "poller.json" _
    filledConfig rfl hdec hvalid⟩

/-! ## Lemmas on the sample decoder -/

theorem unmarshalSample_tickerBody :
    unmarshalSample exactQuoted tickerBody (unpackSample.zero 0) =
      (⟨true, ⟨"BTC", "USD", 50000.00, 12.5, 1.25⟩⟩, none) := by
  have h : unmarshalSample exactQuoted tickerBody (unpackSample.zero 0) =
      (⟨true, ⟨"BTC", "USD", mkRat 5000000 100, mkRat 125 10, mkRat 125 100⟩⟩, none) := by
    rfl
  rw [h]
  have h1 : mkRat 5000000 100 = (50000.00 : ℚ) := by norm_num
  have h2 : mkRat 125 10 = (12.5 : ℚ) := by norm_num
  have h3 : mkRat 125 100 = (1.25 : ℚ) := by norm_num
  rw [h1, h2, h3]

theorem unmarshalSample_nativePriceBody :
    unmarshalSample exactQuoted nativePriceBody (unpackSample.zero 0) =
      (⟨true, ⟨"BTC", "USD", 0, 12.5, 1.25⟩⟩, some .stringTag) := by
  have h : unmarshalSample exactQuoted nativePriceBody (unpackSample.zero 0) =
      (⟨true, ⟨"BTC", "USD", 0, mkRat 125 10, mkRat 125 100⟩⟩, some .stringTag) := by
    rfl
  rw [h]
  have h2 : mkRat 125 10 = (12.5 : ℚ) := by norm_num
  have h3 : mkRat 125 100 = (1.25 : ℚ) := by norm_num
  rw [h2, h3]

theorem insertOneResult_events {F : Type} (db : DBWorld) (ticker currency : String)
    (price volume delta : F) :
    (insertOneResult db ticker currency price volume delta).events.filter Event.isHttpDo = [] ∧
    (insertOneResult db ticker currency price volume delta).events.filter Event.isInsertCall
      = [] := by
  unfold insertOneResult
  cases db.prepare <;> cases db.exec <;> cases db.rowsAffected <;>
    simp [Event.isHttpDo, Event.isInsertCall]

theorem doPoll_fetched {F : Type}
    (unmarshal : Body → unpackSample F → Dec (unpackSample F)) (zero : F) (w : CycleWorld)
    (settings : Poll) (payload : Body) (hreq : w.request settings.Uri = true)
    (hresp : w.response = some payload) :
    (doPoll unmarshal zero w settings).events.filter Event.isHttpDo
      = [.httpDo settings.Uri] ∧
    (doPoll unmarshal zero w settings).events.filter Event.isInsertCall =
      if (unmarshal payload (unpackSample.zero zero)).1.Success then
        [.insertCall (unmarshal payload (unpackSample.zero zero)).1.Ticker.Base
          (unmarshal payload (unpackSample.zero zero)).1.Ticker.Target
          (unmarshal payload (unpackSample.zero zero)).1.Ticker.Price
          (unmarshal payload (unpackSample.zero zero)).1.Ticker.Volume
          (unmarshal payload (unpackSample.zero zero)).1.Ticker.Change]
      else [] := by
  unfold doPoll
  simp only [hreq, hresp, if_true]
  cases hs : (unmarshal payload (unpackSample.zero zero)).1.Success
  · simp [Event.isHttpDo, Event.isInsertCall]
  · have he := insertOneResult_events w.db
      (unmarshal payload (unpackSample.zero zero)).1.Ticker.Base
      (unmarshal payload (unpackSample.zero zero)).1.Ticker.Target
      (unmarshal payload (unpackSample.zero zero)).1.Ticker.Price
      (unmarshal payload (unpackSample.zero zero)).1.Ticker.Volume
      (unmarshal payload (unpackSample.zero zero)).1.Ticker.Change
    simp only [if_true]
    split <;> simp [Event.isHttpDo, Event.isInsertCall, List.filter_append, he.1, he.2]

/-! ## insertOneResult: the claims -/

/-- C6: insertOneResult returns true exactly when preparing the statement,
executing it and reading the affected-row count all succeeded; whenever one of
the three fails it does not return true. -/
theorem C6_insert_true_iff_all_succeed {F : Type} (db : DBWorld) (ticker currency : String)
    (price volume delta : F) :
    (insertOneResult db ticker currency price volume delta).exit = .returned true ↔
      db.prepare = true ∧ db.exec = true ∧ db.rowsAffected.isSome = true := by
  unfold insertOneResult
  cases db.prepare <;> cases db.exec <;> cases db.rowsAffected <;> simp

/-- C7, evaluated where preparation fails: whatever the other answers of the
database would be, insertOneResult still calls Exec on the (nil) statement and
ends in a panic; it does not return false. -/
theorem C7_failed_prepare_still_executes {F : Type} (exec : Bool) (rows : Option Int)
    (ticker currency : String) (price volume delta : F) :
    insertOneResult ⟨false, exec, rows⟩ ticker currency price volume delta =
      ⟨[.dbPrepare, .stmtExec ticker currency price volume delta], .panicked⟩ ∧
    (insertOneResult ⟨false, exec, rows⟩ ticker currency price volume delta).exit
      ≠ .returned false := by
  constructor
  · rfl
  · simp [insertOneResult]

/-! ## doPoll: the claims -/

/-- C4: in a cycle whose response body was fetched, doPoll issues exactly one
HTTP request, and it invokes insertOneResult exactly once, with (base, target,
price, volume, change) of the decoded envelope in this order, when the decoded
success flag is true, and not at all when it is false. -/
theorem C4_one_request_one_insert_iff_success {F : Type}
    (unmarshal : Body → unpackSample F → Dec (unpackSample F)) (zero : F) (w : CycleWorld)
    (settings : Poll) (payload : Body) (hreq : w.request settings.Uri = true)
    (hresp : w.response = some payload) :
    (doPoll unmarshal zero w settings).events.filter Event.isHttpDo
      = [.httpDo settings.Uri] ∧
    (doPoll unmarshal zero w settings).events.filter Event.isInsertCall =
      if (unmarshal payload (unpackSample.zero zero)).1.Success then
        [.insertCall (unmarshal payload (unpackSample.zero zero)).1.Ticker.Base
          (unmarshal payload (unpackSample.zero zero)).1.Ticker.Target
          (unmarshal payload (unpackSample.zero zero)).1.Ticker.Price
          (unmarshal payload (unpackSample.zero zero)).1.Ticker.Volume
          (unmarshal payload (unpackSample.zero zero)).1.Ticker.Change]
      else [] :=
  doPoll_fetched unmarshal zero w settings payload hreq hresp

/-- C4 at the body of a successful ticker response: one request and exactly
one invocation, with ("BTC", "USD", 50000.00, 12.5, 1.25). -/
theorem C4_witness_ticker_body :
    (healthyWorld tickerBody).request "https://example.org/ticker" = true ∧
    (healthyWorld tickerBody).response = some tickerBody ∧
    (doPoll (unmarshalSample exactQuoted) 0 (healthyWorld tickerBody)
      ⟨"https://example.org/ticker", 60⟩).events.filter Event.isHttpDo
      = [.httpDo "https://example.org/ticker"] ∧
    (doPoll (unmarshalSample exactQuoted) 0 (healthyWorld tickerBody)
      ⟨"https://example.org/ticker", 60⟩).events.filter Event.isInsertCall
      = [.insertCall "BTC" "USD" 50000.00 12.5 1.25] := by
  have h := C4_one_request_one_insert_iff_success (unmarshalSample exactQuoted) 0
    (healthyWorld tickerBody) ⟨"https://example.org/ticker", 60⟩ tickerBody rfl rfl
  rw [unmarshalSample_tickerBody] at h
  exact ⟨rfl, rfl, h.1, by simpa using h.2⟩

/-- C5, evaluated on a body whose price is a native JSON number: decoding
reports an error, yet the success flag decoded before it is true and doPoll
invokes insertOneResult once, with the price left at zero. For a body that is
not valid JSON, by contrast, nothing is decoded and doPoll invokes
insertOneResult zero times. -/
theorem C5_insert_after_decode_error :
    ((unmarshalSample exactQuoted nativePriceBody (unpackSample.zero 0)).2
        = some .stringTag ∧
      (doPoll (unmarshalSample exactQuoted) 0 (healthyWorld nativePriceBody)
        ⟨"https://example.org/ticker", 60⟩).events.filter Event.isInsertCall
        = [.insertCall "BTC" "USD" 0 12.5 1.25]) ∧
    ((unmarshalSample exactQuoted .malformed (unpackSample.zero 0)).2
        = some .invalidText ∧
      (doPoll (unmarshalSample exactQuoted) 0 (healthyWorld .malformed)
        ⟨"https://example.org/ticker", 60⟩).events.filter Event.isInsertCall = []) := by
  have h := doPoll_fetched (unmarshalSample exactQuoted) 0
    (healthyWorld nativePriceBody) ⟨"https://example.org/ticker", 60⟩ nativePriceBody rfl rfl
  rw [unmarshalSample_nativePriceBody] at h
  refine ⟨⟨?_, by simpa using h.2⟩, rfl, ?_⟩
  · rw [unmarshalSample_nativePriceBody]
  · exact (doPoll_fetched (unmarshalSample exactQuoted) 0 (healthyWorld .malformed)
      ⟨"https://example.org/ticker", 60⟩ .malformed rfl rfl).2

/-! ## Lemmas on the loop -/

theorem pollLoop_succ_panicked {F : Type}
    (unmarshal : Body → unpackSample F → Dec (unpackSample F)) (zero : F)
    (worlds : Nat → CycleWorld) (settings : Poll) (k n : Nat)
    (h : (doPoll unmarshal zero (worlds k) settings).exit = .panicked) :
    pollLoop unmarshal zero worlds settings k (n + 1) =
      ⟨[.cycle settings (doPoll unmarshal zero (worlds k) settings)], true⟩ := by
  simp only [pollLoop, h]

theorem pollLoop_succ_returned {F : Type}
    (unmarshal : Body → unpackSample F → Dec (unpackSample F)) (zero : F)
    (worlds : Nat → CycleWorld) (settings : Poll) (k n : Nat) (u : Unit)
    (h : (doPoll unmarshal zero (worlds k) settings).exit = .returned u) :
    pollLoop unmarshal zero worlds settings k (n + 1) =
      ⟨.cycle settings (doPoll unmarshal zero (worlds k) settings) :: .tick ::
          (pollLoop unmarshal zero worlds settings (k + 1) n).events,
        (pollLoop unmarshal zero worlds settings (k + 1) n).panicked⟩ := by
  simp only [pollLoop, h]

theorem isReturnedCycle_iff {F : Type} (settings : Poll) (run : Run F Unit) :
    LoopEvent.isReturnedCycle (.cycle settings run) = true ↔ run.exit ≠ .panicked := by
  obtain ⟨ev, ex⟩ := run
  cases ex <;> simp [LoopEvent.isReturnedCycle]

theorem pollLoop_spec {F : Type} (unmarshal : Body → unpackSample F → Dec (unpackSample F))
    (zero : F) (worlds : Nat → CycleWorld) (settings : Poll) (n : Nat) :
    ∀ k : Nat,
      alternates true (pollLoop unmarshal zero worlds settings k n).events = true ∧
      (pollLoop unmarshal zero worlds settings k n).events.countP LoopEvent.isTick =
        (pollLoop unmarshal zero worlds settings k n).events.countP
          LoopEvent.isReturnedCycle ∧
      (pollLoop unmarshal zero worlds settings k n).events.countP LoopEvent.isTick ≤ n ∧
      (∀ e ∈ (pollLoop unmarshal zero worlds settings k n).events,
        (e.isCycle || e.isTick) = true) ∧
      ((pollLoop unmarshal zero worlds settings k n).panicked = false →
        (pollLoop unmarshal zero worlds settings k n).events =
          (List.range n).flatMap (fun i =>
            [.cycle settings (doPoll unmarshal zero (worlds (k + i)) settings), .tick]) ∧
        (pollLoop unmarshal zero worlds settings k n).events.countP LoopEvent.isCycle = n ∧
        (pollLoop unmarshal zero worlds settings k n).events.countP LoopEvent.isTick = n) := by
  induction n with
  | zero => intro k; simp [pollLoop, alternates]
  | succ n ih =>
    intro k
    obtain ⟨ha, hc, hle, hall, hok⟩ := ih (k + 1)
    cases hx : (doPoll unmarshal zero (worlds k) settings).exit with
    | panicked =>
      have hr : LoopEvent.isReturnedCycle
          (.cycle settings (doPoll unmarshal zero (worlds k) settings) : LoopEvent F)
            = false := by
        rw [Bool.eq_false_iff, Ne, isReturnedCycle_iff]
        simp [hx]
      rw [pollLoop_succ_panicked unmarshal zero worlds settings k n hx]
      simp [alternates, LoopEvent.isCycle, LoopEvent.isTick, hr, List.countP_cons]
    | returned u =>
      have hr : LoopEvent.isReturnedCycle
          (.cycle settings (doPoll unmarshal zero (worlds k) settings) : LoopEvent F)
            = true := by
        rw [isReturnedCycle_iff]
        simp [hx]
      rw [pollLoop_succ_returned unmarshal zero worlds settings k n u hx]
      refine ⟨?_, ?_, ?_, ?_, ?_⟩
      · simp [alternates, LoopEvent.isCycle, LoopEvent.isTick, ha]
      · have ht : LoopEvent.isReturnedCycle (LoopEvent.tick : LoopEvent F) = false := rfl
        simp [List.countP_cons, LoopEvent.isTick, ht, hr, hc]
      · simp [List.countP_cons, LoopEvent.isTick, hle]
      · intro e he
        simp only [List.mem_cons] at he
        rcases he with rfl | rfl | he
        · rfl
        · rfl
        · exact hall e he
      · intro hp
        obtain ⟨hev, hcy, hti⟩ := hok hp
        refine ⟨?_, ?_, ?_⟩
        · simp only [List.range_succ_eq_map, List.flatMap_cons, List.flatMap_map, hev,
            Nat.add_zero, List.cons_append, List.nil_append, List.cons.injEq, true_and]
          congr 1
          funext i
          simp [Nat.succ_eq_add_one, Nat.add_comm, Nat.add_left_comm]
        · simp [List.countP_cons, LoopEvent.isCycle, hcy]
        · simp [List.countP_cons, LoopEvent.isTick, hti]

theorem cycleTickEvents_pollUntilDone {F : Type}
    (unmarshal : Body → unpackSample F → Dec (unpackSample F)) (zero : F)
    (allConfig : Config) (worlds : Nat → CycleWorld) (settings : Poll) (ticks : Nat) :
    cycleTickEvents (pollUntilDone unmarshal zero allConfig worlds settings ticks) =
      if tickerPeriod allConfig ≤ 0 then []
      else (pollLoop unmarshal zero worlds settings 0 ticks).events := by
  unfold cycleTickEvents pollUntilDone
  by_cases hp : tickerPeriod allConfig ≤ 0
  · simp [hp]
  · have hall := (pollLoop_spec unmarshal zero worlds settings ticks 0).2.2.2.1
    simp only [hp, if_false]
    rw [List.filter_cons]
    simp only [LoopEvent.isCycle, LoopEvent.isTick, Bool.or_self, Bool.false_eq_true,
      if_false]
    exact List.filter_eq_self.2 hall

/-! ## The loop: the claims -/

/-- C8, evaluated where the network fails: when no response arrives (whatever
the request construction, the decoder and the database would do), doPoll
dereferences the nil response and panics instead of returning, and a loop whose
first cycle meets this never waits for a tick: the run is the one cycle and the
goroutine is dead. -/
theorem C8_network_error_ends_loop {F : Type}
    (unmarshal : Body → unpackSample F → Dec (unpackSample F)) (zero : F)
    (request : String → Bool) (db : DBWorld) (settings : Poll) (later : Nat → CycleWorld)
    (n : Nat) :
    (doPoll unmarshal zero ⟨request, none, db⟩ settings).exit = .panicked ∧
    (pollUntilDone unmarshal zero filledConfig
      (fun i => if i = 0 then ⟨request, none, db⟩ else later i) settings (n + 1)).panicked
        = true ∧
    (cycleTickEvents (pollUntilDone unmarshal zero filledConfig
      (fun i => if i = 0 then ⟨request, none, db⟩ else later i) settings (n + 1))).countP
        LoopEvent.isTick = 0 := by
  have hx : (doPoll unmarshal zero ⟨request, none, db⟩ settings).exit = .panicked := by
    unfold doPoll
    cases hr : request settings.Uri <;> simp [hr]
  have hp : ¬ tickerPeriod filledConfig ≤ 0 := by decide
  have hl := pollLoop_succ_panicked unmarshal zero
    (fun i => if i = 0 then ⟨request, none, db⟩ else later i) settings 0 n
    (by simpa using hx)
  refine ⟨hx, ?_, ?_⟩
  · unfold pollUntilDone
    simp only [hp, if_false, hl]
  · rw [cycleTickEvents_pollUntilDone]
    simp only [hp, if_false, hl]
    simp [LoopEvent.isTick]

/-- C9: in every run of pollUntilDone, the cycle and tick-wait events alternate
strictly, beginning with a cycle, and as many ticks have been waited for as
cycles have returned; in a run that has not panicked, observed until N ticks
have been received, exactly N cycles have executed, the i-th in the i-th
environment, each followed by its tick wait. -/
theorem C9_cycles_alternate_with_ticks {F : Type}
    (unmarshal : Body → unpackSample F → Dec (unpackSample F)) (zero : F)
    (allConfig : Config) (worlds : Nat → CycleWorld) (settings : Poll) (ticks : Nat) :
    alternates true
      (cycleTickEvents (pollUntilDone unmarshal zero allConfig worlds settings ticks)) = true ∧
    (cycleTickEvents (pollUntilDone unmarshal zero allConfig worlds settings ticks)).countP
        LoopEvent.isTick =
      (cycleTickEvents (pollUntilDone unmarshal zero allConfig worlds settings ticks)).countP
        LoopEvent.isReturnedCycle ∧
    ((pollUntilDone unmarshal zero allConfig worlds settings ticks).panicked = false →
      cycleTickEvents (pollUntilDone unmarshal zero allConfig worlds settings ticks) =
        (List.range ticks).flatMap (fun i =>
          [.cycle settings (doPoll unmarshal zero (worlds i) settings), .tick]) ∧
      (cycleTickEvents (pollUntilDone unmarshal zero allConfig worlds settings ticks)).countP
        LoopEvent.isCycle = ticks ∧
      (cycleTickEvents (pollUntilDone unmarshal zero allConfig worlds settings ticks)).countP
        LoopEvent.isTick = ticks) := by
  obtain ⟨ha, hc, _, _, hok⟩ := pollLoop_spec unmarshal zero worlds settings ticks 0
  rw [cycleTickEvents_pollUntilDone]
  by_cases hp : tickerPeriod allConfig ≤ 0
  · simp [hp, alternates, pollUntilDone]
  · simp only [hp, if_false]
    refine ⟨ha, hc, ?_⟩
    intro hrun
    have hloop : (pollLoop unmarshal zero worlds settings 0 ticks).panicked = false := by
      simpa [pollUntilDone, hp] using hrun
    simpa using hok hloop

/-- C9 at a concrete run: three ticks received in a healthy environment, three
cycles executed. -/
theorem C9_witness_three_ticks :
    (pollUntilDone (unmarshalSample exactQuoted) 0 filledConfig
      (fun _ => healthyWorld tickerBody) filledConfig.Poll 3).panicked = false ∧
    (cycleTickEvents (pollUntilDone (unmarshalSample exactQuoted) 0 filledConfig
      (fun _ => healthyWorld tickerBody) filledConfig.Poll 3)).countP LoopEvent.isCycle = 3 ∧
    (cycleTickEvents (pollUntilDone (unmarshalSample exactQuoted) 0 filledConfig
      (fun _ => healthyWorld tickerBody) filledConfig.Poll 3)).countP LoopEvent.isTick = 3 :=
  have hrun : (pollUntilDone (unmarshalSample exactQuoted) 0 filledConfig
      (fun _ => healthyWorld tickerBody) filledConfig.Poll 3).panicked = false := by rfl
  ⟨hrun, ((C9_cycles_alternate_with_ticks (unmarshalSample exactQuoted) 0 filledConfig
    (fun _ => healthyWorld tickerBody) filledConfig.Poll 3).2.2 hrun).2⟩

end BtcPoller
